import Mathlib

/-!
Verification of the `render-fs` command core of nomad-pack
(`internal/cli/render_fs.go`): the in-memory node tree exposed over FUSE
(root → job directories → files), its Attr/Lookup/ReadDirAll/Read handlers,
and the mount-session lifecycle of `RenderFSCommand.Run`.

Go maps (`map[string]PackEntry`, `map[string]string`) are embedded as
association lists `List (String × _)`; a Go map's keys are unique, which
appears as a `Nodup` hypothesis where a claim needs it.  Go byte strings
are embedded as `String` (Go `len` of a string counts bytes, embedded as
`String.utf8ByteSize`).
-/

namespace RenderFs

/-- Embeds the two `fuse.DirentType` values the code uses:
`fuse.DT_Dir` and `fuse.DT_File`. -/
inductive DirentType where
  | dir
  | file
deriving DecidableEq, Repr

/-- Embeds `fuse.Dirent` (the fields the code sets: `Name` and `Type`). -/
structure Dirent where
  name : String
  type : DirentType
deriving DecidableEq, Repr

/-- Embeds the fuse error numbers reachable from this code.  `ENOENT` is
returned explicitly by `RootDir.Lookup`, and by the bazil `fs` serving
layer when a node implements no lookup method at all. -/
inductive Errno where
  | ENOENT
deriving DecidableEq, Repr

/-- Embeds the fields of `fuse.Attr` this code can touch: `Mode` (a Go
`os.FileMode`, a 32-bit word embedded as `Nat`) and `Size`.  The serving
layer hands the handler a zeroed attribute record; fields the handler does
not assign keep their incoming value. -/
structure Attr where
  mode : Nat
  size : Nat
deriving DecidableEq, Repr

/-- The zeroed `fuse.Attr` as handed to an `Attr` handler. -/
def zeroAttr : Attr := Attr.mk 0 0

/-- Go `os.ModeDir`: bit 31 of the 32-bit `FileMode` word. -/
def osModeDir : Nat := 2 ^ 31

/-- Embeds `type PackEntry struct { files map[string]string }`. -/
structure PackEntry where
  files : List (String × String)
deriving DecidableEq, Repr

/-- Embeds `type RootDir struct { jobs map[string]PackEntry }`. -/
structure RootDir where
  jobs : List (String × PackEntry)
deriving DecidableEq, Repr

/-- Embeds `type JobDir struct { job PackEntry }`. -/
structure JobDir where
  job : PackEntry
deriving DecidableEq, Repr

/-- Embeds `type RenderFS struct { Name string; Content string }` — the
file node type. -/
structure RenderFS where
  name : String
  content : String
deriving DecidableEq, Repr

/-- Embeds `RenderFS.Attr`: the body is only a comment
("You can fill in some default attributes here if needed") and `return nil`,
so the incoming attribute record is returned untouched. -/
def RenderFS.attr (_r : RenderFS) (a : Attr) : Except Errno Attr :=
  Except.ok a

/-- Embeds `RenderFS.Read`: `resp.Data = []byte(r.Content); return nil`.
The request's `Offset` and `Size` fields are not consulted. -/
def RenderFS.read (r : RenderFS) (_offset : Int) (_size : Nat) : Except Errno String :=
  Except.ok r.content

/-- Embeds `RootDir.Lookup`: `job, ok := d.jobs[name]`; on miss return
`fuse.Errno(fuse.ENOENT)`, on hit return `&JobDir{job: job}`. -/
def RootDir.lookup (d : RootDir) (name : String) : Except Errno JobDir :=
  match d.jobs.lookup name with
  | some job => Except.ok (JobDir.mk job)
  | none => Except.error Errno.ENOENT

/-- Embeds `RootDir.ReadDirAll`: one `fuse.Dirent` per key of `d.jobs`,
each with `Type = fuse.DT_Dir`; returns nil error. -/
def RootDir.readDirAll (d : RootDir) : Except Errno (List Dirent) :=
  Except.ok (d.jobs.map fun p => Dirent.mk p.1 DirentType.dir)

/-- Embeds `RootDir.Attr`: `attr.Mode = os.ModeDir | 0o755`; `Size` is not
assigned and keeps its incoming value. -/
def RootDir.attr (_d : RootDir) (a : Attr) : Except Errno Attr :=
  Except.ok (Attr.mk (osModeDir ||| 0o755) a.size)

/-- Embeds `JobDir.Attr`: `attr.Mode = os.ModeDir | 0o755`. -/
def JobDir.attr (_j : JobDir) (a : Attr) : Except Errno Attr :=
  Except.ok (Attr.mk (osModeDir ||| 0o755) a.size)

/-- Embeds `JobDir.ReadDirAll`: one `fuse.Dirent` per key of
`j.job.files`, each with `Type = fuse.DT_File`; returns nil error. -/
def JobDir.readDirAll (j : JobDir) : Except Errno (List Dirent) :=
  Except.ok (j.job.files.map fun p => Dirent.mk p.1 DirentType.file)

/-- The `fs.Node` values that can appear in the served tree. -/
inductive Node where
  | rootDir (d : RootDir)
  | jobDir (d : JobDir)
  | renderFS (f : RenderFS)
deriving DecidableEq, Repr

/-- Child lookup as dispatched by the bazil `fs` serving layer: `RootDir`
implements `Lookup` (embedded above); `JobDir` and `RenderFS` implement no
lookup method in this code, so the dispatcher answers `ENOENT` for every
name (bazil `fs/serve.go` falls back to `ENOENT` when the node is neither
a `NodeStringLookuper` nor a `NodeRequestLookuper`). -/
def Node.lookup : Node → String → Except Errno Node
  | Node.rootDir d, name => (d.lookup name).map Node.jobDir
  | Node.jobDir _, _ => Except.error Errno.ENOENT
  | Node.renderFS _, _ => Except.error Errno.ENOENT

/-- A filesystem request dispatched to the served tree after it is handed
to the mount session: the operations the node set implements. -/
inductive FSOp where
  | rootAttr
  | rootLookup (name : String)
  | rootReadDirAll
  | jobAttr (group : String)
  | jobReadDirAll (group : String)
  | fileAttr (group file : String)
  | fileRead (group file : String) (offset : Int) (size : Nat)
deriving DecidableEq, Repr

/-- Result of one dispatched request. -/
inductive OpResult where
  | attrRes (r : Except Errno Attr)
  | lookupRes (r : Except Errno JobDir)
  | direntsRes (r : Except Errno (List Dirent))
  | readRes (r : Except Errno String)
deriving Repr

/-- Dispatch one request against the job mapping and return its result
together with the mapping the handler leaves behind.  Every handler body in
the code only reads `d.jobs` / `j.job.files` / `r.Content` — no branch
assigns into either map — so the mapping coming out of each branch is the
one that went in.  Group and file operations first resolve their node the
way the serving layer would (map lookups); a miss answers `ENOENT`. -/
def applyOp (jobs : List (String × PackEntry)) :
    FSOp → OpResult × List (String × PackEntry)
  | FSOp.rootAttr =>
      (OpResult.attrRes ((RootDir.mk jobs).attr zeroAttr), jobs)
  | FSOp.rootLookup name =>
      (OpResult.lookupRes ((RootDir.mk jobs).lookup name), jobs)
  | FSOp.rootReadDirAll =>
      (OpResult.direntsRes ((RootDir.mk jobs).readDirAll), jobs)
  | FSOp.jobAttr g =>
      (OpResult.attrRes (match jobs.lookup g with
        | some job => (JobDir.mk job).attr zeroAttr
        | none => Except.error Errno.ENOENT), jobs)
  | FSOp.jobReadDirAll g =>
      (OpResult.direntsRes (match jobs.lookup g with
        | some job => (JobDir.mk job).readDirAll
        | none => Except.error Errno.ENOENT), jobs)
  | FSOp.fileAttr g f =>
      (OpResult.attrRes (match jobs.lookup g with
        | some job => match job.files.lookup f with
          | some c => (RenderFS.mk f c).attr zeroAttr
          | none => Except.error Errno.ENOENT
        | none => Except.error Errno.ENOENT), jobs)
  | FSOp.fileRead g f off sz =>
      (OpResult.readRes (match jobs.lookup g with
        | some job => match job.files.lookup f with
          | some c => (RenderFS.mk f c).read off sz
          | none => Except.error Errno.ENOENT
        | none => Except.error Errno.ENOENT), jobs)

/-- The job mapping after a whole sequence of requests has been served,
each request running against the mapping the previous one left behind. -/
def applyOps (jobs : List (String × PackEntry)) : List FSOp → List (String × PackEntry)
  | [] => jobs
  | op :: rest => applyOps (applyOp jobs op).2 rest

/-- Outcome environment for one invocation of `RenderFSCommand.Run`: the
result of each external call the function makes, in program order.  `true`
means the call failed (returned a non-nil error). -/
structure RunEnv where
  initErr : Bool
  openErr : Bool
  readErr : Bool
  unmarshalErr : Bool
  mountErr : Bool
  serveErr : Bool
deriving DecidableEq, Repr

/-- Observable events of one invocation of `RenderFSCommand.Run`. -/
inductive Event where
  | openCall
  | readCall
  | unmarshalCall
  | mountCall
  | serveCall
  | unmountCall
  | connCloseCall
  | fpCloseCall
  | closerCall
deriving DecidableEq, Repr

/-- Embeds the control flow of `RenderFSCommand.Run` as (exit code, event
trace).  Deferred calls (`closer`, `fp.Close`, `conn.Close`,
`fuse.Unmount`) run in LIFO order on every return past their registration
point: `closer` is deferred right after `helper.WithInterrupt`, `fp.Close`
after a successful `os.Open`, and `conn.Close` then `fuse.Unmount` after a
successful `fuse.Mount` — so `fuse.Unmount` runs first of the four on the
paths that reach it.  Each early `return 1` unwinds only the defers
registered so far. -/
def RenderFSCommand.run (env : RunEnv) : Nat × List Event :=
  if env.initErr then (1, [])
  else if env.openErr then
    (1, [Event.openCall, Event.closerCall])
  else if env.readErr then
    (1, [Event.openCall, Event.readCall, Event.fpCloseCall, Event.closerCall])
  else if env.unmarshalErr then
    (1, [Event.openCall, Event.readCall, Event.unmarshalCall,
         Event.fpCloseCall, Event.closerCall])
  else if env.mountErr then
    (1, [Event.openCall, Event.readCall, Event.unmarshalCall, Event.mountCall,
         Event.fpCloseCall, Event.closerCall])
  else if env.serveErr then
    (1, [Event.openCall, Event.readCall, Event.unmarshalCall, Event.mountCall,
         Event.serveCall, Event.unmountCall, Event.connCloseCall,
         Event.fpCloseCall, Event.closerCall])
  else
    (0, [Event.openCall, Event.readCall, Event.unmarshalCall, Event.mountCall,
         Event.serveCall, Event.unmountCall, Event.connCloseCall,
         Event.fpCloseCall, Event.closerCall])

/-! Helper lemmas about association-list lookup. -/

theorem lookup_eq_none_of_not_mem_keys {β : Type} (l : List (String × β)) (a : String)
    (h : a ∉ l.map Prod.fst) : l.lookup a = none := by
  induction l with
  | nil => rfl
  | cons p rest ih =>
    obtain ⟨k, v⟩ := p
    simp only [List.map_cons, List.mem_cons, not_or] at h
    have hb : (a == k) = false := beq_eq_false_iff_ne.mpr h.1
    simp [List.lookup, hb, ih h.2]

theorem lookup_isSome_eq_contains_keys {β : Type} (l : List (String × β)) (a : String) :
    (l.lookup a).isSome = (l.map Prod.fst).contains a := by
  induction l with
  | nil => rfl
  | cons p rest ih =>
    obtain ⟨k, v⟩ := p
    cases hb : a == k <;>
      simp [List.lookup, List.contains, List.elem, hb, ih]

theorem applyOp_preserves (jobs : List (String × PackEntry)) (op : FSOp) :
    (applyOp jobs op).2 = jobs := by
  cases op <;> rfl

/-- C1: On the tree `{"web" ↦ {"job.conf" ↦ "A"}}`, a root-level lookup of
`web` returns the job directory node, but the group-level lookup of
`job.conf` on that node answers ENOENT: `JobDir` implements no lookup
method (and no code ever constructs a `RenderFS` file node), so the path
`web/job.conf` never resolves to a File node whose read could return
`"A"`, contrary to the claim. -/
theorem chainedLookup_web_jobconf_enoent :
    Node.lookup (Node.rootDir (RootDir.mk [("web", PackEntry.mk [("job.conf", "A")])])) "web"
        = Except.ok (Node.jobDir (JobDir.mk (PackEntry.mk [("job.conf", "A")])))
      ∧ Node.lookup (Node.jobDir (JobDir.mk (PackEntry.mk [("job.conf", "A")]))) "job.conf"
        = Except.error Errno.ENOENT := by
  exact ⟨rfl, rfl⟩

/-- C2: For the file node with content `"A"` (byte length 1), a read at
offset 1 — the end of the content — with requested size 4096 returns the
whole content `"A"` instead of an empty result, and a read at offset -1
succeeds with `"A"` instead of failing with InvalidArgument:
`RenderFS.Read` never consults the request's offset or size. -/
theorem read_ignores_offset_and_size :
    RenderFS.read (RenderFS.mk "job.conf" "A") 1 4096 = Except.ok "A"
      ∧ RenderFS.read (RenderFS.mk "job.conf" "A") (-1) 4096 = Except.ok "A"
      ∧ ("A" : String) ≠ "" := by
  refine ⟨rfl, rfl, by decide⟩

/-- C3: For the file node with content `"A"`, the attribute handler
returns the zeroed attribute record unchanged — reported mode 0 (not a
regular-file mode with read permission) and reported size 0 — although the
content's byte length is 1. -/
theorem file_attr_left_at_zero :
    RenderFS.attr (RenderFS.mk "job.conf" "A") zeroAttr = Except.ok zeroAttr
      ∧ zeroAttr.mode = 0 ∧ zeroAttr.size = 0
      ∧ ("A" : String).utf8ByteSize = 1 := by
  refine ⟨rfl, rfl, rfl, by decide⟩

/-- C4: ReadDirAll on the root yields exactly one Directory-tagged entry
per group name (the entry names are exactly the keys, without duplicates),
ReadDirAll on a group yields exactly one File-tagged entry per file name,
and an empty mapping at either level yields an empty sequence, not an
error. -/
theorem readDirAll_lists_exactly_keys
    (jobs : List (String × PackEntry)) (job : PackEntry)
    (hj : (jobs.map Prod.fst).Nodup) (hf : (job.files.map Prod.fst).Nodup) :
    (RootDir.mk jobs).readDirAll
        = Except.ok (jobs.map fun p => Dirent.mk p.1 DirentType.dir)
      ∧ (jobs.map fun p => Dirent.mk p.1 DirentType.dir).map Dirent.name
        = jobs.map Prod.fst
      ∧ ((jobs.map fun p => Dirent.mk p.1 DirentType.dir).map Dirent.name).Nodup
      ∧ (JobDir.mk job).readDirAll
        = Except.ok (job.files.map fun p => Dirent.mk p.1 DirentType.file)
      ∧ (job.files.map fun p => Dirent.mk p.1 DirentType.file).map Dirent.name
        = job.files.map Prod.fst
      ∧ ((job.files.map fun p => Dirent.mk p.1 DirentType.file).map Dirent.name).Nodup
      ∧ (RootDir.mk []).readDirAll = Except.ok []
      ∧ (JobDir.mk (PackEntry.mk [])).readDirAll = Except.ok [] := by
  have h2 : (jobs.map fun p => Dirent.mk p.1 DirentType.dir).map Dirent.name
      = jobs.map Prod.fst := by
    rw [List.map_map]
    exact List.map_congr_left fun a _ => rfl
  have h5 : (job.files.map fun p => Dirent.mk p.1 DirentType.file).map Dirent.name
      = job.files.map Prod.fst := by
    rw [List.map_map]
    exact List.map_congr_left fun a _ => rfl
  exact ⟨rfl, h2, h2 ▸ hj, rfl, h5, h5 ▸ hf, rfl, rfl⟩

/-- C4 witness: the two-group Scenario-A tree and a one-file group. -/
theorem readDirAll_lists_exactly_keys_witness :
    (RootDir.mk [("web", PackEntry.mk [("job.conf", "A")]), ("db", PackEntry.mk [("job.conf", "B")])]).readDirAll
        = Except.ok [Dirent.mk "web" DirentType.dir, Dirent.mk "db" DirentType.dir]
      ∧ ([Dirent.mk "web" DirentType.dir, Dirent.mk "db" DirentType.dir].map Dirent.name
        = ["web", "db"])
      ∧ ([Dirent.mk "web" DirentType.dir, Dirent.mk "db" DirentType.dir].map Dirent.name).Nodup
      ∧ (JobDir.mk (PackEntry.mk [("job.conf", "A")])).readDirAll
        = Except.ok [Dirent.mk "job.conf" DirentType.file]
      ∧ ([Dirent.mk "job.conf" DirentType.file].map Dirent.name = ["job.conf"])
      ∧ ([Dirent.mk "job.conf" DirentType.file].map Dirent.name).Nodup
      ∧ (RootDir.mk []).readDirAll = Except.ok []
      ∧ (JobDir.mk (PackEntry.mk [])).readDirAll = Except.ok [] :=
  readDirAll_lists_exactly_keys
    [("web", PackEntry.mk [("job.conf", "A")]), ("db", PackEntry.mk [("job.conf", "B")])]
    (PackEntry.mk [("job.conf", "A")]) (by decide) (by decide)

/-- C5: Looking up a name absent from the root's job mapping fails with
ENOENT (NotFound), returning no node; at the group level every lookup —
in particular one for a name absent from the group's file mapping —
answers ENOENT as well.  Both are total functions, so no panic is
possible. -/
theorem lookup_absent_enoent
    (jobs : List (String × PackEntry)) (name : String) (job : PackEntry) (fname : String)
    (hname : name ∉ jobs.map Prod.fst) (_hf : fname ∉ job.files.map Prod.fst) :
    (RootDir.mk jobs).lookup name = Except.error Errno.ENOENT
      ∧ Node.lookup (Node.jobDir (JobDir.mk job)) fname = Except.error Errno.ENOENT := by
  refine ⟨?_, rfl⟩
  simp [RootDir.lookup, lookup_eq_none_of_not_mem_keys jobs name hname]

/-- C5 witness: `unknown` is not a group of the Scenario-A tree and
`missing` is not a file of the `web` group. -/
theorem lookup_absent_enoent_witness :
    (RootDir.mk [("web", PackEntry.mk [("job.conf", "A")])]).lookup "unknown"
        = Except.error Errno.ENOENT
      ∧ Node.lookup (Node.jobDir (JobDir.mk (PackEntry.mk [("job.conf", "A")]))) "missing"
        = Except.error Errno.ENOENT :=
  lookup_absent_enoent [("web", PackEntry.mk [("job.conf", "A")])] "unknown"
    (PackEntry.mk [("job.conf", "A")]) "missing" (by decide) (by decide)

/-- C6 counterexample: the directory attribute handlers report mode
`os.ModeDir | 0o755`, and bit 7 of that word — the owner write bit,
`0o200` — is set, so the reported permission bits do have a write bit,
contrary to the claim. -/
theorem dir_attr_owner_write_bit :
    RootDir.attr (RootDir.mk []) zeroAttr = Except.ok (Attr.mk (osModeDir ||| 0o755) 0)
      ∧ JobDir.attr (JobDir.mk (PackEntry.mk [])) zeroAttr
        = Except.ok (Attr.mk (osModeDir ||| 0o755) 0)
      ∧ Nat.testBit (osModeDir ||| 0o755) 7 = true := by
  refine ⟨rfl, rfl, by decide⟩

/-- C6 amended: every directory node (root-level and per-group) reports
mode `os.ModeDir | 0o755`: the directory bit (bit 31) is set, the
permission bits are `0o755` — owner read/write/traverse, group and others
read/traverse only — and the size field is left at its incoming value. -/
theorem dir_attr_mode_0755 (d : RootDir) (j : JobDir) (a : Attr) :
    d.attr a = Except.ok (Attr.mk (osModeDir ||| 0o755) a.size)
      ∧ j.attr a = Except.ok (Attr.mk (osModeDir ||| 0o755) a.size)
      ∧ Nat.testBit (osModeDir ||| 0o755) 31 = true
      ∧ (osModeDir ||| 0o755) % 2 ^ 9 = 0o755 :=
  ⟨rfl, rfl, by decide, by decide⟩

/-- C7: With the mount outcome forced to success, the trace holds an
unmount event exactly as often as a mount event — every path that performs
the mount (whatever the serve outcome, including serve errors and
cancellation) also performs the unmount; with the mount outcome forced to
failure, no serve and no unmount events occur. -/
theorem run_unmount_on_every_exit (env : RunEnv) :
    ((RenderFSCommand.run (RunEnv.mk env.initErr env.openErr env.readErr env.unmarshalErr
          false env.serveErr)).2.count Event.unmountCall
        = (RenderFSCommand.run (RunEnv.mk env.initErr env.openErr env.readErr env.unmarshalErr
          false env.serveErr)).2.count Event.mountCall)
      ∧ (RenderFSCommand.run (RunEnv.mk env.initErr env.openErr env.readErr env.unmarshalErr
          true env.serveErr)).2.count Event.serveCall = 0
      ∧ (RenderFSCommand.run (RunEnv.mk env.initErr env.openErr env.readErr env.unmarshalErr
          true env.serveErr)).2.count Event.unmountCall = 0 := by
  obtain ⟨i, o, r, u, m, s⟩ := env
  cases i <;> cases o <;> cases r <;> cases u <;> cases m <;> cases s <;> decide

/-- C8: The exit code is 0 exactly when every stage — argument parsing,
opening, reading and unmarshalling the input document, the mount, and the
serve loop — succeeds, and 1 otherwise; forcing an unmarshal (parse)
failure yields a trace with no mount event, so parse failures are reported
before any mount attempt; and the clean run's trace serves and unmounts
exactly once. -/
theorem run_exit_code_spec (env : RunEnv) :
    (RenderFSCommand.run env).1
        = (if (env.initErr || env.openErr || env.readErr || env.unmarshalErr
              || env.mountErr || env.serveErr) = true then 1 else 0)
      ∧ (RenderFSCommand.run (RunEnv.mk env.initErr env.openErr env.readErr true
          env.mountErr env.serveErr)).2.count Event.mountCall = 0
      ∧ (RenderFSCommand.run (RunEnv.mk false false false false false false)).2.count
          Event.serveCall = 1
      ∧ (RenderFSCommand.run (RunEnv.mk false false false false false false)).2.count
          Event.unmountCall = 1 := by
  obtain ⟨i, o, r, u, m, s⟩ := env
  cases i <;> cases o <;> cases r <;> cases u <;> cases m <;> cases s <;> decide

/-- C9: Serving any sequence of requests (Attr, Lookup, ReadDirAll, Read,
against any of the three node kinds) leaves the group-to-file-to-content
mapping unchanged: the mapping after the sequence equals the mapping
before. -/
theorem fsOps_preserve_tree (jobs : List (String × PackEntry)) (ops : List FSOp) :
    applyOps jobs ops = jobs := by
  induction ops generalizing jobs with
  | nil => rfl
  | cons op rest ih =>
    rw [applyOps, applyOp_preserves, ih]

/-- C10: A root-level lookup succeeds exactly when the root's ReadDirAll
listing contains an entry with that name — both consult the same job
mapping. -/
theorem rootLookup_iff_readDirAll_contains (jobs : List (String × PackEntry)) (name : String) :
    ((RootDir.mk jobs).lookup name).toOption.isSome
      = ((((RootDir.mk jobs).readDirAll).toOption.getD []).map Dirent.name).contains name := by
  have h1 : ((RootDir.mk jobs).lookup name).toOption.isSome = (jobs.lookup name).isSome := by
    cases h : jobs.lookup name <;> simp [RootDir.lookup, h, Except.toOption]
  have h2 : ((((RootDir.mk jobs).readDirAll).toOption.getD []).map Dirent.name)
      = jobs.map Prod.fst := by
    show (jobs.map fun p => Dirent.mk p.1 DirentType.dir).map Dirent.name = jobs.map Prod.fst
    rw [List.map_map]
    exact List.map_congr_left fun a _ => rfl
  rw [h1, h2, lookup_isSome_eq_contains_keys]

end RenderFs
